import Mathlib

/-
Verification of the DomoActors mailbox subsystem.

The development shallowly embeds `ArrayMailbox` (array_mailbox.py) and
`BoundedMailbox` (bounded_mailbox.py) as a transition system over an explicit
mailbox state.  Messages are identified by natural numbers.  The atomic steps
are the synchronous public operations (`send`, `suspend`, `resume`, `close`,
`dispatch`) together with the two atomic blocks of the `_dispatch_all` worker
coroutine: one completed loop iteration (`deliverStep`, which performs the
loop-top checks, `receive()`, and `await message.deliver()`), and the loop
break followed by the `finally` block (`finishStep`).  In asyncio, code between
awaits runs without interleaving, so these blocks are the exact atomicity
granularity of the Python source.

Ghost fields record the observable history: the handler invocations
(`delivered`), the `DeadLetter` records handed to the stage (`deadLetters`),
the completions resolved with `None` (`resolvedNull`), the successful appends
(`appended`), the messages evicted from the queue by DropOldest (`evicted`),
and the messages a send refused to append (`refused`: closed sends, DropNewest
drops, Reject overflows); `droppedNew` separately lists the DropNewest drops.
-/

namespace DomoActors

/-- Modelled from the spec: `OverflowPolicy` lives in `mailbox.py`, which is not
under `src/`; the spec gives the three policies DropOldest, DropNewest, Reject. -/
inductive OverflowPolicy
  | dropOldest
  | dropNewest
  | reject
  deriving DecidableEq, Repr

/-- Mailbox configuration: `capacity = none` is the unbounded `ArrayMailbox`;
`capacity = some c` is `BoundedMailbox(c, policy)` (the policy is unused in the
unbounded case). -/
structure Config where
  capacity : Option Nat
  policy : OverflowPolicy
  deriving DecidableEq, Repr

/-- The state of one mailbox.  The first four fields are the Python object
fields `_queue`, `_closed`, `_suspended`, `_dispatching`, and
`_dropped_message_count`; `workers` counts the live `_dispatch_all` tasks; the
remaining fields are ghost histories of the observable events. -/
structure MailboxState where
  queue : List Nat
  closed : Bool
  suspended : Bool
  dispatching : Bool
  droppedCount : Nat
  workers : Nat
  delivered : List Nat
  deadLetters : List Nat
  resolvedNull : List Nat
  appended : List Nat
  evicted : List Nat
  refused : List Nat
  droppedNew : List Nat
  deriving DecidableEq, Repr

/-- `__init__`: empty queue, all flags false, zero drop count, no worker. -/
def initState : MailboxState :=
  { queue := [], closed := false, suspended := false, dispatching := false,
    droppedCount := 0, workers := 0, delivered := [], deadLetters := [],
    resolvedNull := [], appended := [], evicted := [], refused := [],
    droppedNew := [] }

/-- `self._dispatching = True; asyncio.create_task(self._dispatch_all())`:
set the flag and create a dispatch task. -/
def startWorker (s : MailboxState) : MailboxState :=
  { s with dispatching := true, workers := s.workers + 1 }

/-- The dead-letter branch shared by the closed-mailbox path of `send` and by
the Reject overflow path: build a `DeadLetter(message.to(), representation)`,
hand it to `stage().dead_letters().failed_delivery(...)`, and resolve the
message's deferred with `None`.  `DeadLetters.failed_delivery` itself lives
outside `src/`; modelled from the spec: it appends the record to the sink.
The message was not appended, so it is also recorded as refused. -/
def sendToDeadLetters (s : MailboxState) (m : Nat) : MailboxState :=
  { s with deadLetters := s.deadLetters ++ [m],
           resolvedNull := s.resolvedNull ++ [m],
           refused := s.refused ++ [m] }

/-- `ArrayMailbox.send`: if not closed, append and start a dispatch task when
neither suspended nor already dispatching; if closed, route to dead letters
and resolve the deferred with `None`. -/
def ArrayMailbox.send (s : MailboxState) (m : Nat) : MailboxState :=
  if s.closed = false then
    let s1 := { s with queue := s.queue ++ [m], appended := s.appended ++ [m] }
    if s1.suspended = false ∧ s1.dispatching = false then startWorker s1 else s1
  else
    sendToDeadLetters s m

/-- `BoundedMailbox._notify_dropped`: increment `_dropped_message_count` and
resolve the dropped message's deferred with `None`. -/
def BoundedMailbox.notifyDropped (s : MailboxState) (m : Nat) : MailboxState :=
  { s with droppedCount := s.droppedCount + 1,
           resolvedNull := s.resolvedNull ++ [m] }

/-- `BoundedMailbox._handle_overflow`: DropOldest pops the head (recording it
as evicted) and appends the new message, falling back to a plain append when
the queue is somehow empty; DropNewest drops the incoming message; Reject
routes the incoming message to dead letters and increments the drop count. -/
def BoundedMailbox.handleOverflow (pol : OverflowPolicy) (s : MailboxState) (m : Nat) :
    MailboxState :=
  match pol with
  | .dropOldest =>
    match s.queue with
    | d :: rest =>
        let s1 := BoundedMailbox.notifyDropped
          { s with queue := rest, evicted := s.evicted ++ [d] } d
        { s1 with queue := s1.queue ++ [m], appended := s1.appended ++ [m] }
    | [] =>
        { s with queue := s.queue ++ [m], appended := s.appended ++ [m] }
  | .dropNewest =>
      BoundedMailbox.notifyDropped
        { s with refused := s.refused ++ [m], droppedNew := s.droppedNew ++ [m] } m
  | .reject =>
      let s1 := sendToDeadLetters s m
      { s1 with droppedCount := s1.droppedCount + 1 }

/-- `BoundedMailbox.send`: closed mailboxes route to dead letters; a full queue
(`len(self._queue) >= self._capacity`) goes through `_handle_overflow`;
otherwise append and start a dispatch task when neither suspended nor already
dispatching. -/
def BoundedMailbox.send (c : Nat) (pol : OverflowPolicy) (s : MailboxState) (m : Nat) :
    MailboxState :=
  if s.closed = true then
    sendToDeadLetters s m
  else if c ≤ s.queue.length then
    BoundedMailbox.handleOverflow pol s m
  else
    let s1 := { s with queue := s.queue ++ [m], appended := s.appended ++ [m] }
    if s1.suspended = false ∧ s1.dispatching = false then startWorker s1 else s1

/-- `send` of the configured mailbox class. -/
def Mailbox.send (cfg : Config) (s : MailboxState) (m : Nat) : MailboxState :=
  match cfg.capacity with
  | none => ArrayMailbox.send s m
  | some c => BoundedMailbox.send c cfg.policy s m

/-- `suspend`: set the suspended flag. -/
def Mailbox.suspend (s : MailboxState) : MailboxState :=
  { s with suspended := true }

/-- `resume`: clear the suspended flag, then start a dispatch task if
`is_receivable()` and not already dispatching. -/
def Mailbox.resume (s : MailboxState) : MailboxState :=
  let s1 := { s with suspended := false }
  if s1.queue ≠ [] ∧ s1.dispatching = false then startWorker s1 else s1

/-- `close`: set the closed flag. -/
def Mailbox.close (s : MailboxState) : MailboxState :=
  { s with closed := true }

/-- `dispatch` (legacy method): return if already dispatching, otherwise start
a dispatch task when not suspended, not closed, and `is_receivable()`. -/
def Mailbox.dispatch (s : MailboxState) : MailboxState :=
  if s.dispatching = true then s
  else if s.suspended = false ∧ s.closed = false ∧ s.queue ≠ [] then startWorker s
  else s

/-- `receive`: pop the head of the queue, or return `EmptyMessage` (modelled
as `none`, which is not deliverable) when the queue is empty. -/
def Mailbox.receive (s : MailboxState) : Option Nat × MailboxState :=
  match s.queue with
  | m :: rest => (some m, { s with queue := rest })
  | [] => (none, s)

/-- One completed iteration of the `_dispatch_all` loop: the loop-top check
passes (not suspended, not closed), `receive()` pops a deliverable message,
and `await message.deliver()` invokes the handler.  Only a live worker can
take this step; when no message is available nothing happens (that case exits
through `finishStep`). -/
def workerDeliver (s : MailboxState) : MailboxState :=
  if 1 ≤ s.workers ∧ s.suspended = false ∧ s.closed = false then
    match Mailbox.receive s with
    | (some m, s1) => { s1 with delivered := s1.delivered ++ [m] }
    | (none, _) => s
  else s

/-- The worker observes a stop condition at the top of the loop (suspended,
closed, or an undeliverable `EmptyMessage` from an empty queue), breaks, and
runs the `finally` block: clear `_dispatching`, then restart a fresh dispatch
task if neither suspended nor closed and messages remain.  The break and the
`finally` block contain no await, so they form one atomic step. -/
def workerFinish (s : MailboxState) : MailboxState :=
  if 1 ≤ s.workers ∧ (s.suspended = true ∨ s.closed = true ∨ s.queue = []) then
    let s1 := { s with dispatching := false, workers := s.workers - 1 }
    if s1.suspended = false ∧ s1.closed = false ∧ s1.queue ≠ [] then startWorker s1 else s1
  else s

/-- The operations of the step relation: the public mailbox methods plus the
two atomic worker blocks. -/
inductive Op
  | send (m : Nat)
  | suspend
  | resume
  | close
  | dispatch
  | deliverStep
  | finishStep
  deriving DecidableEq, Repr

/-- One atomic step. -/
def step (cfg : Config) (s : MailboxState) : Op → MailboxState
  | .send m => Mailbox.send cfg s m
  | .suspend => Mailbox.suspend s
  | .resume => Mailbox.resume s
  | .close => Mailbox.close s
  | .dispatch => Mailbox.dispatch s
  | .deliverStep => workerDeliver s
  | .finishStep => workerFinish s

/-- Run a trace of operations from the freshly constructed mailbox.  A state
is reachable exactly when it is `run cfg t` for some trace `t`. -/
def run (cfg : Config) (t : List Op) : MailboxState :=
  t.foldl (step cfg) initState

/-- The messages passed to `send` operations of a trace, in order. -/
def sentMsgs (t : List Op) : List Nat :=
  t.filterMap fun op =>
    match op with
    | .send m => some m
    | _ => none

/-- The unbounded `ArrayMailbox` configuration (the policy field is unused). -/
def cfgU : Config := { capacity := none, policy := OverflowPolicy.dropOldest }

/-- The messages a single operation passes to `send` (none for the others). -/
def opSent : Op → List Nat
  | .send m => [m]
  | _ => []

/-- The dispatching flag counts the live workers: there is exactly one live
dispatch task when the flag is set and none when it is clear. -/
def WorkersDisp (s : MailboxState) : Prop :=
  s.workers = if s.dispatching = true then 1 else 0

/-- When the queue holds work and the mailbox is neither suspended nor closed,
a dispatch task is live.  This fails for a capacity-0 DropOldest mailbox,
whose overflow append skips the dispatch check, hence the capacity premise in
the lemmas below. -/
def WorkerWhenWork (s : MailboxState) : Prop :=
  s.queue ≠ [] → s.suspended = false → s.closed = false → s.dispatching = true

/-- History invariant tying the ghost logs together.  `sent` is the list of
all messages passed to `send` so far, in order.
`fifo`: the delivered messages followed by the still-queued ones form an
order-preserving subsequence of the successful appends.
`partQ`: every successfully appended message is, up to reordering, exactly one
of delivered, still queued, or evicted by DropOldest.
`partS`: every sent message is, up to reordering, exactly one of appended or
refused.
`appSent`: the successful appends are a subsequence of the sends.
`dlRefused`: the dead-letter records are a subsequence of the refused sends.
`rnSub`: completions are resolved with None only for evicted or refused
messages.
`evRn`: every evicted message has had its completion resolved with None.
`dnCount`: per message, the dead-letter records and the DropNewest drops
account for distinct refusals.
`dnRn`: every DropNewest-dropped message has had its completion resolved with
None.
`dropCount`: the dropped-message counter is incremented for every eviction and
every DropNewest drop (Reject increments it further). -/
structure Inv (sent : List Nat) (s : MailboxState) : Prop where
  fifo : List.Sublist (s.delivered ++ s.queue) s.appended
  partQ : List.Perm (s.delivered ++ s.queue ++ s.evicted) s.appended
  partS : List.Perm (s.appended ++ s.refused) sent
  appSent : List.Sublist s.appended sent
  dlRefused : List.Sublist s.deadLetters s.refused
  rnSub : ∀ m, m ∈ s.resolvedNull → m ∈ s.evicted ∨ m ∈ s.refused
  evRn : ∀ m, m ∈ s.evicted → m ∈ s.resolvedNull
  dnCount : ∀ a : Nat, s.deadLetters.count a + s.droppedNew.count a ≤ s.refused.count a
  dnRn : ∀ m, m ∈ s.droppedNew → m ∈ s.resolvedNull
  dropCount : s.evicted.length + s.droppedNew.length ≤ s.droppedCount

lemma workersDisp_step (cfg : Config) (s : MailboxState) (op : Op)
    (h : WorkersDisp s) : WorkersDisp (step cfg s op) := by
  obtain ⟨q, cl, su, di, dc, w, dv, dl, rn, ap, ev, rf, dnw⟩ := s
  unfold WorkersDisp at h ⊢
  rcases cfg with ⟨cap, pol⟩
  cases op with
  | send m =>
    rcases cap with _ | c
    · simp only [step, Mailbox.send, ArrayMailbox.send, sendToDeadLetters, startWorker]
      split_ifs <;> simp_all
    · simp only [step, Mailbox.send, BoundedMailbox.send, BoundedMailbox.handleOverflow,
        BoundedMailbox.notifyDropped, sendToDeadLetters, startWorker]
      split_ifs <;> (try cases pol) <;> (try cases q) <;> simp_all
  | suspend => simpa [step, Mailbox.suspend] using h
  | resume =>
    simp only [step, Mailbox.resume, startWorker]
    split_ifs <;> simp_all
  | close => simpa [step, Mailbox.close] using h
  | dispatch =>
    simp only [step, Mailbox.dispatch, startWorker]
    split_ifs <;> simp_all
  | deliverStep =>
    simp only [step, workerDeliver, Mailbox.receive]
    cases q <;> split_ifs <;> simp_all
  | finishStep =>
    simp only [step, workerFinish, startWorker]
    cases di <;> split_ifs <;> simp_all

lemma workersDisp_run (cfg : Config) (t : List Op) : WorkersDisp (run cfg t) := by
  have h : ∀ (u : List Op) (s : MailboxState),
      WorkersDisp s → WorkersDisp (u.foldl (step cfg) s) := by
    intro u
    induction u with
    | nil => intro s hs; exact hs
    | cons op u ih => intro s hs; exact ih _ (workersDisp_step cfg s op hs)
  exact h t initState (by simp [WorkersDisp, initState])

lemma inv_of_eq (sent : List Nat) (s s2 : MailboxState) (h : Inv sent s)
    (h1 : s2.queue = s.queue) (h2 : s2.delivered = s.delivered)
    (h3 : s2.deadLetters = s.deadLetters) (h4 : s2.resolvedNull = s.resolvedNull)
    (h5 : s2.appended = s.appended) (h6 : s2.evicted = s.evicted)
    (h7 : s2.refused = s.refused) (h8 : s2.droppedNew = s.droppedNew)
    (h9 : s.droppedCount ≤ s2.droppedCount) : Inv sent s2 := by
  obtain ⟨f1, f2, f3, f4, f5, f6, f7, f8, f9, f10⟩ := h
  refine ⟨?_, ?_, ?_, ?_, ?_, ?_, ?_, ?_, ?_, ?_⟩
  · rw [h2, h1, h5]; exact f1
  · rw [h2, h1, h6, h5]; exact f2
  · rw [h5, h7]; exact f3
  · rw [h5]; exact f4
  · rw [h3, h7]; exact f5
  · rw [h4, h6, h7]; exact f6
  · rw [h6, h4]; exact f7
  · rw [h3, h8, h7]; exact f8
  · rw [h8, h4]; exact f9
  · rw [h6, h8]; exact Nat.le_trans f10 h9

lemma inv_startWorker (sent : List Nat) (s : MailboxState) (h : Inv sent s) :
    Inv sent (startWorker s) :=
  inv_of_eq sent s _ h rfl rfl rfl rfl rfl rfl rfl rfl (Nat.le_refl _)

lemma inv_append (sent : List Nat) (s : MailboxState) (m : Nat) (h : Inv sent s) :
    Inv (sent ++ [m]) { s with queue := s.queue ++ [m], appended := s.appended ++ [m] } := by
  obtain ⟨f1, f2, f3, f4, f5, f6, f7, f8, f9, f10⟩ := h
  refine ⟨?_, ?_, ?_, ?_, ?_, ?_, f7, f8, f9, f10⟩
  · have h2 := f1.append (List.Sublist.refl [m])
    simpa [List.append_assoc] using h2
  · rw [List.perm_iff_count] at f2 ⊢
    intro a
    have h2 := f2 a
    simp only [List.count_append] at h2 ⊢
    omega
  · rw [List.perm_iff_count] at f3 ⊢
    intro a
    have h2 := f3 a
    simp only [List.count_append] at h2 ⊢
    omega
  · exact f4.append (List.Sublist.refl [m])
  · exact f5
  · exact f6

lemma inv_refuse (sent : List Nat) (s : MailboxState) (m : Nat) (h : Inv sent s) :
    Inv (sent ++ [m]) (sendToDeadLetters s m) := by
  obtain ⟨f1, f2, f3, f4, f5, f6, f7, f8, f9, f10⟩ := h
  refine ⟨f1, f2, ?_, ?_, ?_, ?_, ?_, ?_, ?_, f10⟩
  · rw [List.perm_iff_count] at f3 ⊢
    intro a
    have h2 := f3 a
    simp only [sendToDeadLetters, List.count_append] at h2 ⊢
    omega
  · exact f4.trans (List.sublist_append_left sent [m])
  · exact f5.append (List.Sublist.refl [m])
  · intro x hx
    simp only [sendToDeadLetters, List.mem_append] at hx
    rcases hx with hx | hx
    · rcases f6 x hx with h2 | h2
      · exact Or.inl h2
      · exact Or.inr (by simp [sendToDeadLetters, List.mem_append, h2])
    · simp only [List.mem_singleton] at hx
      subst hx
      exact Or.inr (by simp [sendToDeadLetters, List.mem_append])
  · intro x hx
    simp only [sendToDeadLetters, List.mem_append]
    exact Or.inl (f7 x hx)
  · intro a
    have h2 := f8 a
    simp only [sendToDeadLetters, List.count_append] at h2 ⊢
    omega
  · intro x hx
    simp only [sendToDeadLetters, List.mem_append]
    exact Or.inl (f9 x hx)

lemma inv_dropNewest (sent : List Nat) (s : MailboxState) (m : Nat) (h : Inv sent s) :
    Inv (sent ++ [m])
      (BoundedMailbox.notifyDropped
        { s with refused := s.refused ++ [m], droppedNew := s.droppedNew ++ [m] } m) := by
  obtain ⟨f1, f2, f3, f4, f5, f6, f7, f8, f9, f10⟩ := h
  refine ⟨f1, f2, ?_, ?_, ?_, ?_, ?_, ?_, ?_, ?_⟩
  · rw [List.perm_iff_count] at f3 ⊢
    intro a
    have h2 := f3 a
    simp only [BoundedMailbox.notifyDropped, List.count_append] at h2 ⊢
    omega
  · exact f4.trans (List.sublist_append_left sent [m])
  · exact f5.trans (List.sublist_append_left s.refused [m])
  · intro x hx
    simp only [BoundedMailbox.notifyDropped, List.mem_append] at hx
    rcases hx with hx | hx
    · rcases f6 x hx with h2 | h2
      · exact Or.inl h2
      · exact Or.inr (by simp [BoundedMailbox.notifyDropped, List.mem_append, h2])
    · simp only [List.mem_singleton] at hx
      subst hx
      exact Or.inr (by simp [BoundedMailbox.notifyDropped, List.mem_append])
  · intro x hx
    simp only [BoundedMailbox.notifyDropped, List.mem_append]
    exact Or.inl (f7 x hx)
  · intro a
    have h2 := f8 a
    simp only [BoundedMailbox.notifyDropped, List.count_append] at h2 ⊢
    omega
  · intro x hx
    simp only [BoundedMailbox.notifyDropped, List.mem_append] at hx ⊢
    rcases hx with hx | hx
    · exact Or.inl (f9 x hx)
    · exact Or.inr hx
  · have h2 := f10
    simp only [BoundedMailbox.notifyDropped, List.length_append, List.length_singleton]
    omega

lemma inv_evict (sent : List Nat) (s : MailboxState) (m d : Nat) (rest : List Nat)
    (hq : s.queue = d :: rest) (h : Inv sent s) :
    Inv (sent ++ [m])
      { s with queue := rest ++ [m], droppedCount := s.droppedCount + 1,
               resolvedNull := s.resolvedNull ++ [d],
               appended := s.appended ++ [m], evicted := s.evicted ++ [d] } := by
  obtain ⟨f1, f2, f3, f4, f5, f6, f7, f8, f9, f10⟩ := h
  rw [hq] at f1 f2
  refine ⟨?_, ?_, ?_, ?_, ?_, ?_, ?_, f8, ?_, ?_⟩
  · have h0 : List.Sublist (s.delivered ++ rest) (s.delivered ++ (d :: rest)) :=
      (List.sublist_cons_self d rest).append_left s.delivered
    have h2 := (h0.trans f1).append (List.Sublist.refl [m])
    simpa [List.append_assoc] using h2
  · rw [List.perm_iff_count] at f2 ⊢
    intro a
    have h2 := f2 a
    simp only [List.count_append, List.count_cons, List.count_nil] at h2 ⊢
    split_ifs at h2 ⊢ <;> omega
  · rw [List.perm_iff_count] at f3 ⊢
    intro a
    have h2 := f3 a
    simp only [List.count_append] at h2 ⊢
    omega
  · exact f4.append (List.Sublist.refl [m])
  · exact f5
  · intro x hx
    simp only [List.mem_append] at hx
    rcases hx with hx | hx
    · rcases f6 x hx with h2 | h2
      · exact Or.inl (by simp [List.mem_append, h2])
      · exact Or.inr h2
    · simp only [List.mem_singleton] at hx
      subst hx
      exact Or.inl (by simp [List.mem_append])
  · intro x hx
    simp only [List.mem_append] at hx ⊢
    rcases hx with hx | hx
    · exact Or.inl (f7 x hx)
    · exact Or.inr hx
  · intro x hx
    simp only [List.mem_append]
    exact Or.inl (f9 x hx)
  · have h2 := f10
    simp only [List.length_append, List.length_singleton]
    omega

lemma inv_deliver (sent : List Nat) (s : MailboxState) (m : Nat) (rest : List Nat)
    (hq : s.queue = m :: rest) (h : Inv sent s) :
    Inv sent { s with queue := rest, delivered := s.delivered ++ [m] } := by
  obtain ⟨f1, f2, f3, f4, f5, f6, f7, f8, f9, f10⟩ := h
  rw [hq] at f1 f2
  refine ⟨?_, ?_, f3, f4, f5, f6, f7, f8, f9, f10⟩
  · simpa [List.append_assoc] using f1
  · rw [List.perm_iff_count] at f2 ⊢
    intro a
    have h2 := f2 a
    simp only [List.count_append, List.count_cons, List.count_nil] at h2 ⊢
    split_ifs at h2 ⊢ <;> omega

lemma inv_step (cfg : Config) (sent : List Nat) (s : MailboxState) (op : Op)
    (h : Inv sent s) : Inv (sent ++ opSent op) (step cfg s op) := by
  cases op with
  | send m =>
    rcases cfg with ⟨cap, pol⟩
    rcases cap with _ | c
    · simp only [step, Mailbox.send, ArrayMailbox.send, opSent]
      split_ifs with h1 h2
      · exact inv_startWorker _ _ (inv_append sent s m h)
      · exact inv_append sent s m h
      · exact inv_refuse sent s m h
    · simp only [step, Mailbox.send, BoundedMailbox.send, opSent]
      split_ifs with h1 h2
      · exact inv_refuse sent s m h
      · cases pol with
        | dropOldest =>
          simp only [BoundedMailbox.handleOverflow]
          rcases hq : s.queue with _ | ⟨d, rest⟩
          · simpa [hq] using inv_append sent s m h
          · simp only [BoundedMailbox.notifyDropped]
            exact inv_evict sent s m d rest hq h
        | dropNewest =>
          simp only [BoundedMailbox.handleOverflow]
          exact inv_dropNewest sent s m h
        | reject =>
          simp only [BoundedMailbox.handleOverflow]
          exact inv_of_eq (sent ++ [m]) (sendToDeadLetters s m)
            { sendToDeadLetters s m with
                droppedCount := (sendToDeadLetters s m).droppedCount + 1 }
            (inv_refuse sent s m h) rfl rfl rfl rfl rfl rfl rfl rfl (Nat.le_succ _)
      · exact inv_startWorker _ _ (inv_append sent s m h)
      · exact inv_append sent s m h
  | suspend =>
    simpa [step, Mailbox.suspend, opSent] using
      inv_of_eq sent s { s with suspended := true } h rfl rfl rfl rfl rfl rfl rfl rfl
        (Nat.le_refl _)
  | resume =>
    simp only [step, Mailbox.resume, opSent, List.append_nil]
    split_ifs with h1
    · exact inv_startWorker _ _
        (inv_of_eq sent s { s with suspended := false } h rfl rfl rfl rfl rfl rfl rfl rfl
          (Nat.le_refl _))
    · exact inv_of_eq sent s { s with suspended := false } h rfl rfl rfl rfl rfl rfl rfl rfl
        (Nat.le_refl _)
  | close =>
    simpa [step, Mailbox.close, opSent] using
      inv_of_eq sent s { s with closed := true } h rfl rfl rfl rfl rfl rfl rfl rfl
        (Nat.le_refl _)
  | dispatch =>
    simp only [step, Mailbox.dispatch, opSent, List.append_nil]
    split_ifs with h1 h2
    · exact h
    · exact inv_startWorker _ _ h
    · exact h
  | deliverStep =>
    simp only [step, workerDeliver, opSent, List.append_nil]
    split_ifs with h1
    · rcases hq : s.queue with _ | ⟨m, rest⟩
      · simp only [Mailbox.receive, hq]
        exact h
      · simp only [Mailbox.receive, hq]
        exact inv_deliver sent s m rest hq h
    · exact h
  | finishStep =>
    simp only [step, workerFinish, opSent, List.append_nil]
    split_ifs with h1 h2
    · exact inv_startWorker _ _
        (inv_of_eq sent s { s with dispatching := false, workers := s.workers - 1 } h
          rfl rfl rfl rfl rfl rfl rfl rfl (Nat.le_refl _))
    · exact inv_of_eq sent s { s with dispatching := false, workers := s.workers - 1 } h
        rfl rfl rfl rfl rfl rfl rfl rfl (Nat.le_refl _)
    · exact h

lemma sentMsgs_cons (op : Op) (u : List Op) :
    sentMsgs (op :: u) = opSent op ++ sentMsgs u := by
  cases op <;> simp [sentMsgs, opSent]

lemma inv_fold (cfg : Config) (u : List Op) : ∀ (sent : List Nat) (s : MailboxState),
    Inv sent s → Inv (sent ++ sentMsgs u) (u.foldl (step cfg) s) := by
  induction u with
  | nil => intro sent s h; simpa [sentMsgs] using h
  | cons op u ih =>
      intro sent s h
      have h3 := ih (sent ++ opSent op) (step cfg s op) (inv_step cfg sent s op h)
      simpa [sentMsgs_cons, List.append_assoc] using h3

lemma inv_init : Inv [] initState := by
  refine ⟨?_, ?_, ?_, ?_, ?_, ?_, ?_, ?_, ?_, ?_⟩ <;> simp [initState]

lemma inv_run (cfg : Config) (t : List Op) : Inv (sentMsgs t) (run cfg t) := by
  have h := inv_fold cfg t [] initState inv_init
  simpa [run] using h

lemma workerWhenWork_step (cfg : Config) (hcap : cfg.capacity ≠ some 0) (s : MailboxState)
    (op : Op) (h : WorkerWhenWork s) : WorkerWhenWork (step cfg s op) := by
  obtain ⟨q, cl, su, di, dc, w, dv, dl, rn, ap, ev, rf, dnw⟩ := s
  unfold WorkerWhenWork at h ⊢
  rcases cfg with ⟨cap, pol⟩
  cases op with
  | send m =>
    rcases cap with _ | c
    · simp only [step, Mailbox.send, ArrayMailbox.send, sendToDeadLetters, startWorker]
      split_ifs <;> simp_all
    · simp only [ne_eq, Option.some.injEq] at hcap
      simp only [step, Mailbox.send, BoundedMailbox.send, BoundedMailbox.handleOverflow,
        BoundedMailbox.notifyDropped, sendToDeadLetters, startWorker]
      split_ifs <;> (try cases pol) <;> (try cases q) <;> simp_all
  | suspend => simp [step, Mailbox.suspend]
  | resume =>
    simp only [step, Mailbox.resume, startWorker]
    split_ifs <;> simp_all
  | close => simp [step, Mailbox.close]
  | dispatch =>
    simp only [step, Mailbox.dispatch, startWorker]
    split_ifs <;> simp_all
  | deliverStep =>
    simp only [step, workerDeliver, Mailbox.receive]
    cases q <;> split_ifs <;> simp_all
  | finishStep =>
    simp only [step, workerFinish, startWorker]
    cases su <;> cases cl <;> split_ifs <;> simp_all

lemma workerWhenWork_run (cfg : Config) (hcap : cfg.capacity ≠ some 0) (t : List Op) :
    WorkerWhenWork (run cfg t) := by
  have h : ∀ (u : List Op) (s : MailboxState),
      WorkerWhenWork s → WorkerWhenWork (u.foldl (step cfg) s) := by
    intro u
    induction u with
    | nil => intro s hs; exact hs
    | cons op u ih => intro s hs; exact ih _ (workerWhenWork_step cfg hcap s op hs)
  exact h t initState (by simp [WorkerWhenWork, initState])

lemma step_closed (cfg : Config) (s : MailboxState) (op : Op) (hs : s.closed = true) :
    (step cfg s op).closed = true ∧
    (step cfg s op).queue = s.queue ∧
    (step cfg s op).delivered = s.delivered ∧
    (step cfg s op).appended = s.appended ∧
    (step cfg s op).evicted = s.evicted ∧
    (step cfg s op).droppedCount = s.droppedCount ∧
    (step cfg s op).deadLetters = s.deadLetters ++ opSent op ∧
    (step cfg s op).resolvedNull = s.resolvedNull ++ opSent op ∧
    (step cfg s op).refused = s.refused ++ opSent op := by
  obtain ⟨q, cl, su, di, dc, w, dv, dl, rn, ap, ev, rf, dnw⟩ := s
  rcases cfg with ⟨cap, pol⟩
  cases op with
  | send m =>
    rcases cap with _ | c <;>
      simp_all [step, Mailbox.send, ArrayMailbox.send, BoundedMailbox.send,
        sendToDeadLetters, opSent]
  | suspend => simp_all [step, Mailbox.suspend, opSent]
  | resume =>
    simp only [step, Mailbox.resume, startWorker, opSent]
    split_ifs <;> simp_all
  | close => simp_all [step, Mailbox.close, opSent]
  | dispatch =>
    simp only [step, Mailbox.dispatch, startWorker, opSent]
    split_ifs <;> simp_all
  | deliverStep =>
    simp only [step, workerDeliver, Mailbox.receive, opSent]
    cases q <;> split_ifs <;> simp_all
  | finishStep =>
    simp only [step, workerFinish, startWorker, opSent]
    split_ifs <;> simp_all

lemma fold_closed (cfg : Config) (u : List Op) : ∀ s : MailboxState, s.closed = true →
    (u.foldl (step cfg) s).closed = true ∧
    (u.foldl (step cfg) s).queue = s.queue ∧
    (u.foldl (step cfg) s).delivered = s.delivered ∧
    (u.foldl (step cfg) s).appended = s.appended ∧
    (u.foldl (step cfg) s).evicted = s.evicted ∧
    (u.foldl (step cfg) s).droppedCount = s.droppedCount ∧
    (u.foldl (step cfg) s).deadLetters = s.deadLetters ++ sentMsgs u ∧
    (u.foldl (step cfg) s).resolvedNull = s.resolvedNull ++ sentMsgs u ∧
    (u.foldl (step cfg) s).refused = s.refused ++ sentMsgs u := by
  induction u with
  | nil => intro s hs; simp [sentMsgs, hs]
  | cons op u ih =>
    intro s hs
    obtain ⟨g1, g2, g3, g4, g5, g6, g7, g8, g9⟩ := step_closed cfg s op hs
    obtain ⟨k1, k2, k3, k4, k5, k6, k7, k8, k9⟩ := ih (step cfg s op) g1
    refine ⟨k1, ?_, ?_, ?_, ?_, ?_, ?_, ?_, ?_⟩ <;>
      simp [List.foldl_cons, k2, k3, k4, k5, k6, k7, k8, k9, g2, g3, g4, g5, g6, g7, g8, g9,
        sentMsgs_cons, List.append_assoc]

lemma drain_deliver (cfg : Config) : ∀ (q : List Nat) (s : MailboxState),
    s.suspended = false → s.closed = false → 1 ≤ s.workers → s.queue = q →
    (List.replicate q.length Op.deliverStep).foldl (step cfg) s
      = { s with queue := [], delivered := s.delivered ++ q } := by
  intro q
  induction q with
  | nil =>
    intro s h1 h2 h3 h4
    obtain ⟨q0, cl, su, di, dc, w, dv, dl, rn, ap, ev, rf, dnw⟩ := s
    simp_all
  | cons m rest ih =>
    intro s h1 h2 h3 h4
    have hstep : step cfg s .deliverStep
        = { s with queue := rest, delivered := s.delivered ++ [m] } := by
      simp [step, workerDeliver, Mailbox.receive, h4, h1, h2, h3]
    have hrec := ih { s with queue := rest, delivered := s.delivered ++ [m] }
      (by simp [h1]) (by simp [h2]) (by simpa using h3) (by simp)
    obtain ⟨q0, cl, su, di, dc, w, dv, dl, rn, ap, ev, rf, dnw⟩ := s
    simp only [List.length_cons, List.replicate_succ, List.foldl_cons, hstep]
    simp only [hstep] at hrec ⊢
    rw [hrec]
    simp [List.append_assoc]

lemma sends_suspended (ms : List Nat) : ∀ s : MailboxState,
    s.suspended = true → s.closed = false →
    (ms.map Op.send).foldl (step cfgU) s
      = { s with queue := s.queue ++ ms, appended := s.appended ++ ms } := by
  induction ms with
  | nil =>
    intro s h1 h2
    obtain ⟨q0, cl, su, di, dc, w, dv, dl, rn, ap, ev, rf, dnw⟩ := s
    simp
  | cons m rest ih =>
    intro s h1 h2
    have hstep : step cfgU s (.send m)
        = { s with queue := s.queue ++ [m], appended := s.appended ++ [m] } := by
      simp [step, cfgU, Mailbox.send, ArrayMailbox.send, h1, h2]
    have hrec := ih { s with queue := s.queue ++ [m], appended := s.appended ++ [m] }
      (by simp [h1]) (by simp [h2])
    obtain ⟨q0, cl, su, di, dc, w, dv, dl, rn, ap, ev, rf, dnw⟩ := s
    simp only [List.map_cons, List.foldl_cons, hstep]
    simp only [hstep] at hrec ⊢
    rw [hrec]
    simp [List.append_assoc]

lemma run_append (cfg : Config) (t u : List Op) :
    run cfg (t ++ u) = u.foldl (step cfg) (run cfg t) := by
  simp [run, List.foldl_append]

lemma sentMsgs_append (t u : List Op) :
    sentMsgs (t ++ u) = sentMsgs t ++ sentMsgs u := by
  simp [sentMsgs, List.filterMap_append]

lemma queue_bound_step (c : Nat) (pol : OverflowPolicy) (s : MailboxState) (op : Op)
    (h : s.queue.length ≤ max c 1) :
    (step ⟨some c, pol⟩ s op).queue.length ≤ max c 1 := by
  obtain ⟨q, cl, su, di, dc, w, dv, dl, rn, ap, ev, rf, dnw⟩ := s
  cases op with
  | send m =>
    simp only [step, Mailbox.send, BoundedMailbox.send, BoundedMailbox.handleOverflow,
      BoundedMailbox.notifyDropped, sendToDeadLetters, startWorker]
    split_ifs <;> (try cases pol) <;> (try cases q) <;> simp_all <;> omega
  | suspend => simpa [step, Mailbox.suspend] using h
  | resume =>
    simp only [step, Mailbox.resume, startWorker]
    split_ifs <;> simp_all
  | close => simpa [step, Mailbox.close] using h
  | dispatch =>
    simp only [step, Mailbox.dispatch, startWorker]
    split_ifs <;> simp_all
  | deliverStep =>
    simp only [step, workerDeliver, Mailbox.receive]
    rcases q with _ | ⟨hd, tl⟩
    · split_ifs <;> exact h
    · split_ifs
      · exact Nat.le_trans (Nat.le_succ tl.length) h
      · exact h
  | finishStep =>
    simp only [step, workerFinish, startWorker]
    split_ifs <;> simp_all

lemma queue_bound_run (c : Nat) (pol : OverflowPolicy) (t : List Op) :
    (run ⟨some c, pol⟩ t).queue.length ≤ max c 1 := by
  have h : ∀ (u : List Op) (s : MailboxState), s.queue.length ≤ max c 1 →
      (u.foldl (step ⟨some c, pol⟩) s).queue.length ≤ max c 1 := by
    intro u
    induction u with
    | nil => intro s hs; exact hs
    | cons op u ih => intro s hs; exact ih _ (queue_bound_step c pol s op hs)
  exact h t initState (by simp [initState])

/-- Claim C1: in every reachable state of either mailbox kind (any trace of
send / dispatch / suspend / resume / close and worker steps), the number of
live dispatch tasks equals one exactly when the `_dispatching` flag is set and
zero otherwise — so at most one dispatch worker is active per mailbox at any
instant, and a new dispatch task is only ever created together with setting
the flag from a state in which the flag was clear. -/
theorem single_worker_per_mailbox (cfg : Config) (t : List Op) :
    (run cfg t).workers = (if (run cfg t).dispatching = true then 1 else 0) ∧
    (run cfg t).workers ≤ 1 := by
  have h := workersDisp_run cfg t
  unfold WorkersDisp at h
  refine ⟨h, ?_⟩
  rw [h]
  split_ifs <;> omega

/-- Claim C4: once a mailbox is closed, every further send leaves the queue,
the delivered log and every other observable unchanged except that exactly one
dead-letter record per send is handed to the stage and each such message's
completion is resolved with None; hence the number of dead-letter records
produced after `close()` equals the number of sends issued after `close()`,
and no such send ever leads to a handler invocation. -/
theorem closed_mailbox_dead_letters (cfg : Config) (t u : List Op)
    (h : (run cfg t).closed = true) :
    (run cfg (t ++ u)).closed = true ∧
    (run cfg (t ++ u)).queue = (run cfg t).queue ∧
    (run cfg (t ++ u)).delivered = (run cfg t).delivered ∧
    (run cfg (t ++ u)).deadLetters = (run cfg t).deadLetters ++ sentMsgs u ∧
    (run cfg (t ++ u)).resolvedNull = (run cfg t).resolvedNull ++ sentMsgs u := by
  obtain ⟨k1, k2, k3, k4, k5, k6, k7, k8, k9⟩ := fold_closed cfg u (run cfg t) h
  rw [run_append]
  exact ⟨k1, k2, k3, k7, k8⟩

theorem closed_mailbox_dead_letters_witness :
    (run cfgU [Op.close]).closed = true ∧
    ((run cfgU ([Op.close] ++ [Op.send 5, Op.send 6])).closed = true ∧
     (run cfgU ([Op.close] ++ [Op.send 5, Op.send 6])).queue = (run cfgU [Op.close]).queue ∧
     (run cfgU ([Op.close] ++ [Op.send 5, Op.send 6])).delivered
        = (run cfgU [Op.close]).delivered ∧
     (run cfgU ([Op.close] ++ [Op.send 5, Op.send 6])).deadLetters
        = (run cfgU [Op.close]).deadLetters ++ sentMsgs [Op.send 5, Op.send 6] ∧
     (run cfgU ([Op.close] ++ [Op.send 5, Op.send 6])).resolvedNull
        = (run cfgU [Op.close]).resolvedNull ++ sentMsgs [Op.send 5, Op.send 6]) :=
  ⟨by decide, closed_mailbox_dead_letters cfgU [Op.close] [Op.send 5, Op.send 6] (by decide)⟩

/-- Claim C5 fails on the code as stated: after `send(1)` followed by
`suspend()` on a fresh unbounded mailbox, the mailbox is suspended — a state
in which the claim demands zero active workers — yet the dispatch task created
by the send is still live (it has not yet observed the suspension). -/
theorem worker_quiescence_counterexample :
    (run cfgU [Op.send 1, Op.suspend]).suspended = true ∧
    (run cfgU [Op.send 1, Op.suspend]).workers = 1 := by decide

/-- Claim C5 (amended): at most one dispatch worker is ever active, and in
every reachable state with a non-empty queue that is neither suspended nor
closed, exactly one dispatch worker is active — provided the mailbox is
unbounded or has capacity at least 1 (a capacity-0 DropOldest mailbox appends
via the overflow path without starting a worker).  In the remaining reachable
states zero or one workers may be live, since a worker only exits after it
observes suspension, closure, or an empty queue. -/
theorem worker_when_work_pending (cfg : Config) (t : List Op)
    (hcap : cfg.capacity ≠ some 0) :
    (run cfg t).workers ≤ 1 ∧
    ((run cfg t).queue ≠ [] → (run cfg t).suspended = false →
      (run cfg t).closed = false → (run cfg t).workers = 1) := by
  have h1 := workersDisp_run cfg t
  have h2 := workerWhenWork_run cfg hcap t
  unfold WorkersDisp at h1
  unfold WorkerWhenWork at h2
  constructor
  · rw [h1]; split_ifs <;> omega
  · intro a b c
    rw [h1, h2 a b c]
    simp

theorem worker_when_work_pending_witness :
    cfgU.capacity ≠ some 0 ∧
    ((run cfgU [Op.send 1]).workers ≤ 1 ∧
     ((run cfgU [Op.send 1]).queue ≠ [] → (run cfgU [Op.send 1]).suspended = false →
       (run cfgU [Op.send 1]).closed = false → (run cfgU [Op.send 1]).workers = 1)) :=
  ⟨by decide, worker_when_work_pending cfgU [Op.send 1] (by decide)⟩

/-- Claim C2: over any trace of either mailbox kind whose sent messages are
pairwise distinct, the messages delivered to the handler form an
order-preserving subsequence of the successful appends (FIFO over successful
appends), and no message evicted or refused by an overflow policy (or refused
because the mailbox was closed) is ever delivered. -/
theorem fifo_over_successful_appends (cfg : Config) (t : List Op)
    (h : (sentMsgs t).Nodup) :
    List.Sublist (run cfg t).delivered (run cfg t).appended ∧
    (∀ m ∈ (run cfg t).evicted, m ∉ (run cfg t).delivered) ∧
    (∀ m ∈ (run cfg t).refused, m ∉ (run cfg t).delivered) := by
  obtain ⟨f1, f2, f3, f4, f5, f6, f7⟩ := inv_run cfg t
  have happ : (run cfg t).appended.Nodup := h.sublist f4
  have hdelsub : List.Sublist (run cfg t).delivered (run cfg t).appended :=
    (List.sublist_append_left _ _).trans f1
  have hqnodup : ((run cfg t).delivered ++ (run cfg t).queue ++ (run cfg t).evicted).Nodup :=
    f2.nodup_iff.mpr happ
  have hsnodup : ((run cfg t).appended ++ (run cfg t).refused).Nodup :=
    f3.nodup_iff.mpr h
  obtain ⟨hq1, hq2, hq3⟩ := List.nodup_append.mp hqnodup
  obtain ⟨hs1, hs2, hs3⟩ := List.nodup_append.mp hsnodup
  refine ⟨hdelsub, ?_, ?_⟩
  · intro m hm hcontra
    exact hq3 (List.mem_append.mpr (Or.inl hcontra)) hm
  · intro m hm hcontra
    exact hs3 (hdelsub.subset hcontra) hm

theorem fifo_over_successful_appends_witness :
    (sentMsgs [Op.send 1, Op.send 2, Op.deliverStep]).Nodup ∧
    (List.Sublist (run cfgU [Op.send 1, Op.send 2, Op.deliverStep]).delivered
        (run cfgU [Op.send 1, Op.send 2, Op.deliverStep]).appended ∧
     (∀ m ∈ (run cfgU [Op.send 1, Op.send 2, Op.deliverStep]).evicted,
        m ∉ (run cfgU [Op.send 1, Op.send 2, Op.deliverStep]).delivered) ∧
     (∀ m ∈ (run cfgU [Op.send 1, Op.send 2, Op.deliverStep]).refused,
        m ∉ (run cfgU [Op.send 1, Op.send 2, Op.deliverStep]).delivered)) :=
  ⟨by decide,
   fifo_over_successful_appends cfgU [Op.send 1, Op.send 2, Op.deliverStep] (by decide)⟩

/-- Claim C3 fails on the code as stated: on a capacity-1 DropOldest mailbox,
after suspend, send(1), send(2), resume and a full drain, message 1 was
successfully appended and then evicted; the run ends quiescent (empty queue,
no worker) with the handler never invoked for 1 and no dead-letter record for
1 — so neither arm of the claimed "exactly one of" holds for that successful
send (its completion was resolved with None instead). -/
theorem at_most_once_counterexample :
    1 ∈ (run ⟨some 1, OverflowPolicy.dropOldest⟩
        [Op.suspend, Op.send 1, Op.send 2, Op.resume, Op.deliverStep, Op.finishStep]).appended ∧
    (run ⟨some 1, OverflowPolicy.dropOldest⟩
        [Op.suspend, Op.send 1, Op.send 2, Op.resume, Op.deliverStep, Op.finishStep]).queue
      = [] ∧
    (run ⟨some 1, OverflowPolicy.dropOldest⟩
        [Op.suspend, Op.send 1, Op.send 2, Op.resume, Op.deliverStep, Op.finishStep]).workers
      = 0 ∧
    (run ⟨some 1, OverflowPolicy.dropOldest⟩
        [Op.suspend, Op.send 1, Op.send 2, Op.resume, Op.deliverStep, Op.finishStep]).delivered.count 1
      = 0 ∧
    (run ⟨some 1, OverflowPolicy.dropOldest⟩
        [Op.suspend, Op.send 1, Op.send 2, Op.resume, Op.deliverStep, Op.finishStep]).deadLetters.count 1
      = 0 ∧
    ¬((run ⟨some 1, OverflowPolicy.dropOldest⟩
        [Op.suspend, Op.send 1, Op.send 2, Op.resume, Op.deliverStep, Op.finishStep]).delivered.count 1 = 1
      ∨ (run ⟨some 1, OverflowPolicy.dropOldest⟩
        [Op.suspend, Op.send 1, Op.send 2, Op.resume, Op.deliverStep, Op.finishStep]).deadLetters.count 1 = 1) := by
  decide

/-- Claim C3 (amended): over any trace whose sent messages are pairwise
distinct, delivery is at-most-once — each message's handler is invoked at most
once, at most one dead-letter record per message is produced, and never both
for the same message.  The "exactly one of" of the original claim fails for
messages evicted by DropOldest and for messages dropped by DropNewest: both
receive neither a delivery nor a dead-letter record; instead their completion
is resolved with None and the dropped-message count is incremented — the count
is at least the number of evictions plus DropNewest drops, and a DropNewest
send on a full open mailbox is exactly: drop count + 1, resolve the incoming
completion with None, refuse the message, enqueue nothing. -/
theorem at_most_once_amended (cfg : Config) (t : List Op)
    (h : (sentMsgs t).Nodup) :
    (∀ m, (run cfg t).delivered.count m ≤ 1) ∧
    (∀ m, (run cfg t).deadLetters.count m ≤ 1) ∧
    (∀ m ∈ (run cfg t).delivered, m ∉ (run cfg t).deadLetters) ∧
    (∀ m ∈ (run cfg t).evicted,
      m ∉ (run cfg t).delivered ∧ m ∉ (run cfg t).deadLetters ∧
      m ∈ (run cfg t).resolvedNull) ∧
    (∀ m ∈ (run cfg t).droppedNew,
      m ∉ (run cfg t).delivered ∧ m ∉ (run cfg t).deadLetters ∧
      m ∈ (run cfg t).resolvedNull) ∧
    (run cfg t).evicted.length + (run cfg t).droppedNew.length
      ≤ (run cfg t).droppedCount ∧
    (∀ c : Nat, ∀ s : MailboxState, ∀ m : Nat, s.closed = false → c ≤ s.queue.length →
      BoundedMailbox.send c OverflowPolicy.dropNewest s m
        = { s with droppedCount := s.droppedCount + 1,
                   resolvedNull := s.resolvedNull ++ [m],
                   refused := s.refused ++ [m],
                   droppedNew := s.droppedNew ++ [m] }) := by
  obtain ⟨f1, f2, f3, f4, f5, f6, f7, f8, f9, f10⟩ := inv_run cfg t
  have happ : (run cfg t).appended.Nodup := h.sublist f4
  have hdelsub : List.Sublist (run cfg t).delivered (run cfg t).appended :=
    (List.sublist_append_left _ _).trans f1
  have hqnodup : ((run cfg t).delivered ++ (run cfg t).queue ++ (run cfg t).evicted).Nodup :=
    f2.nodup_iff.mpr happ
  have hsnodup : ((run cfg t).appended ++ (run cfg t).refused).Nodup :=
    f3.nodup_iff.mpr h
  obtain ⟨hq1, hq2, hq3⟩ := List.nodup_append.mp hqnodup
  obtain ⟨hs1, hs2, hs3⟩ := List.nodup_append.mp hsnodup
  have hdl : ∀ m ∈ (run cfg t).appended, m ∉ (run cfg t).deadLetters := by
    intro m hm hcontra
    exact hs3 hm (f5.subset hcontra)
  refine ⟨?_, ?_, ?_, ?_, ?_, f10, ?_⟩
  · intro m
    exact List.nodup_iff_count_le_one.mp (happ.sublist hdelsub) m
  · intro m
    exact List.nodup_iff_count_le_one.mp (hs2.sublist f5) m
  · intro m hm
    exact hdl m (hdelsub.subset hm)
  · intro m hm
    have hmapp : m ∈ (run cfg t).appended :=
      f2.mem_iff.mp (List.mem_append.mpr (Or.inr hm))
    refine ⟨?_, hdl m hmapp, f7 m hm⟩
    intro hcontra
    exact hq3 (List.mem_append.mpr (Or.inl hcontra)) hm
  · intro m hm
    have hcnt : 0 < (run cfg t).droppedNew.count m := List.count_pos_iff.mpr hm
    have hacc := f8 m
    have hrf : m ∈ (run cfg t).refused := List.count_pos_iff.mp (by omega)
    have hnotapp : m ∉ (run cfg t).appended := fun hx => hs3 hx hrf
    refine ⟨fun hx => hnotapp (hdelsub.subset hx), ?_, f9 m hm⟩
    intro hx
    have hdlcnt : 0 < (run cfg t).deadLetters.count m := List.count_pos_iff.mpr hx
    have hrfcnt : (run cfg t).refused.count m ≤ 1 :=
      List.nodup_iff_count_le_one.mp hs2 m
    omega
  · intro c s m hcl hfull
    have hcl2 : ¬(s.closed = true) := by simp [hcl]
    unfold BoundedMailbox.send
    rw [if_neg hcl2, if_pos hfull]
    simp only [BoundedMailbox.handleOverflow, BoundedMailbox.notifyDropped]

theorem at_most_once_amended_witness :
    (sentMsgs [Op.suspend, Op.send 1, Op.send 2]).Nodup ∧
    ((∀ m, (run ⟨some 1, OverflowPolicy.dropOldest⟩ [Op.suspend, Op.send 1, Op.send 2]).delivered.count m ≤ 1) ∧
     (∀ m, (run ⟨some 1, OverflowPolicy.dropOldest⟩ [Op.suspend, Op.send 1, Op.send 2]).deadLetters.count m ≤ 1) ∧
     (∀ m ∈ (run ⟨some 1, OverflowPolicy.dropOldest⟩ [Op.suspend, Op.send 1, Op.send 2]).delivered,
        m ∉ (run ⟨some 1, OverflowPolicy.dropOldest⟩ [Op.suspend, Op.send 1, Op.send 2]).deadLetters) ∧
     (∀ m ∈ (run ⟨some 1, OverflowPolicy.dropOldest⟩ [Op.suspend, Op.send 1, Op.send 2]).evicted,
        m ∉ (run ⟨some 1, OverflowPolicy.dropOldest⟩ [Op.suspend, Op.send 1, Op.send 2]).delivered ∧
        m ∉ (run ⟨some 1, OverflowPolicy.dropOldest⟩ [Op.suspend, Op.send 1, Op.send 2]).deadLetters ∧
        m ∈ (run ⟨some 1, OverflowPolicy.dropOldest⟩ [Op.suspend, Op.send 1, Op.send 2]).resolvedNull) ∧
     (∀ m ∈ (run ⟨some 1, OverflowPolicy.dropOldest⟩ [Op.suspend, Op.send 1, Op.send 2]).droppedNew,
        m ∉ (run ⟨some 1, OverflowPolicy.dropOldest⟩ [Op.suspend, Op.send 1, Op.send 2]).delivered ∧
        m ∉ (run ⟨some 1, OverflowPolicy.dropOldest⟩ [Op.suspend, Op.send 1, Op.send 2]).deadLetters ∧
        m ∈ (run ⟨some 1, OverflowPolicy.dropOldest⟩ [Op.suspend, Op.send 1, Op.send 2]).resolvedNull) ∧
     (run ⟨some 1, OverflowPolicy.dropOldest⟩ [Op.suspend, Op.send 1, Op.send 2]).evicted.length
        + (run ⟨some 1, OverflowPolicy.dropOldest⟩ [Op.suspend, Op.send 1, Op.send 2]).droppedNew.length
        ≤ (run ⟨some 1, OverflowPolicy.dropOldest⟩ [Op.suspend, Op.send 1, Op.send 2]).droppedCount ∧
     (∀ c : Nat, ∀ s : MailboxState, ∀ m : Nat, s.closed = false → c ≤ s.queue.length →
       BoundedMailbox.send c OverflowPolicy.dropNewest s m
         = { s with droppedCount := s.droppedCount + 1,
                    resolvedNull := s.resolvedNull ++ [m],
                    refused := s.refused ++ [m],
                    droppedNew := s.droppedNew ++ [m] })) :=
  ⟨by decide,
   at_most_once_amended ⟨some 1, OverflowPolicy.dropOldest⟩
     [Op.suspend, Op.send 1, Op.send 2] (by decide)⟩

/-- Claim C7: a send to a full, non-closed DropOldest BoundedMailbox evicts
the head of the queue, resolves the evicted message's completion with None,
increments the dropped-message count by one, and appends the new message at
the tail; concretely, with capacity 3 after suspend, sending 1,2,3,4,5 in
order, resume and a full drain, the deliveries are [3, 4, 5] and the dropped
count is 2. -/
theorem drop_oldest_evicts_head (c : Nat) (s : MailboxState) (m d : Nat) (rest : List Nat)
    (hcl : s.closed = false) (hq : s.queue = d :: rest) (hfull : c ≤ s.queue.length) :
    BoundedMailbox.send c OverflowPolicy.dropOldest s m
      = { s with queue := rest ++ [m], droppedCount := s.droppedCount + 1,
                 resolvedNull := s.resolvedNull ++ [d],
                 appended := s.appended ++ [m], evicted := s.evicted ++ [d] } ∧
    (run ⟨some 3, OverflowPolicy.dropOldest⟩
        (Op.suspend :: ([1, 2, 3, 4, 5].map Op.send ++ [Op.resume]
          ++ List.replicate 3 Op.deliverStep ++ [Op.finishStep]))).delivered = [3, 4, 5] ∧
    (run ⟨some 3, OverflowPolicy.dropOldest⟩
        (Op.suspend :: ([1, 2, 3, 4, 5].map Op.send ++ [Op.resume]
          ++ List.replicate 3 Op.deliverStep ++ [Op.finishStep]))).droppedCount = 2 := by
  refine ⟨?_, by decide, by decide⟩
  have hcl2 : ¬(s.closed = true) := by simp [hcl]
  unfold BoundedMailbox.send
  rw [if_neg hcl2, if_pos hfull]
  simp only [BoundedMailbox.handleOverflow, hq, BoundedMailbox.notifyDropped]

theorem drop_oldest_evicts_head_witness :
    ({ initState with queue := [4] } : MailboxState).closed = false ∧
    ({ initState with queue := [4] } : MailboxState).queue = 4 :: [] ∧
    1 ≤ ({ initState with queue := [4] } : MailboxState).queue.length ∧
    (BoundedMailbox.send 1 OverflowPolicy.dropOldest { initState with queue := [4] } 9
      = { ({ initState with queue := [4] } : MailboxState) with
            queue := [] ++ [9],
            droppedCount := ({ initState with queue := [4] } : MailboxState).droppedCount + 1,
            resolvedNull := ({ initState with queue := [4] } : MailboxState).resolvedNull ++ [4],
            appended := ({ initState with queue := [4] } : MailboxState).appended ++ [9],
            evicted := ({ initState with queue := [4] } : MailboxState).evicted ++ [4] } ∧
     (run ⟨some 3, OverflowPolicy.dropOldest⟩
        (Op.suspend :: ([1, 2, 3, 4, 5].map Op.send ++ [Op.resume]
          ++ List.replicate 3 Op.deliverStep ++ [Op.finishStep]))).delivered = [3, 4, 5] ∧
     (run ⟨some 3, OverflowPolicy.dropOldest⟩
        (Op.suspend :: ([1, 2, 3, 4, 5].map Op.send ++ [Op.resume]
          ++ List.replicate 3 Op.deliverStep ++ [Op.finishStep]))).droppedCount = 2) :=
  ⟨by decide, by decide, by decide,
   drop_oldest_evicts_head 1 { initState with queue := [4] } 9 4 []
     (by decide) (by decide) (by decide)⟩

/-- Claim C8: a send to a full, non-closed Reject BoundedMailbox does not
enqueue the message; it produces exactly one dead-letter record for it,
resolves its completion with None, and increments the dropped-message count by
one; concretely, with capacity 2 after suspend, five sends, resume and a full
drain, the first two messages are delivered, the dropped count is 3, and the
dead-letter records are the three rejected messages. -/
theorem reject_routes_to_dead_letters (c : Nat) (s : MailboxState) (m : Nat)
    (hcl : s.closed = false) (hfull : c ≤ s.queue.length) :
    BoundedMailbox.send c OverflowPolicy.reject s m
      = { s with deadLetters := s.deadLetters ++ [m],
                 resolvedNull := s.resolvedNull ++ [m],
                 refused := s.refused ++ [m],
                 droppedCount := s.droppedCount + 1 } ∧
    (run ⟨some 2, OverflowPolicy.reject⟩
        (Op.suspend :: ([1, 2, 3, 4, 5].map Op.send ++ [Op.resume]
          ++ List.replicate 2 Op.deliverStep ++ [Op.finishStep]))).delivered = [1, 2] ∧
    (run ⟨some 2, OverflowPolicy.reject⟩
        (Op.suspend :: ([1, 2, 3, 4, 5].map Op.send ++ [Op.resume]
          ++ List.replicate 2 Op.deliverStep ++ [Op.finishStep]))).droppedCount = 3 ∧
    (run ⟨some 2, OverflowPolicy.reject⟩
        (Op.suspend :: ([1, 2, 3, 4, 5].map Op.send ++ [Op.resume]
          ++ List.replicate 2 Op.deliverStep ++ [Op.finishStep]))).deadLetters = [3, 4, 5] := by
  refine ⟨?_, by decide, by decide, by decide⟩
  have hcl2 : ¬(s.closed = true) := by simp [hcl]
  unfold BoundedMailbox.send
  rw [if_neg hcl2, if_pos hfull]
  simp only [BoundedMailbox.handleOverflow, sendToDeadLetters]

theorem reject_routes_to_dead_letters_witness :
    ({ initState with queue := [4] } : MailboxState).closed = false ∧
    1 ≤ ({ initState with queue := [4] } : MailboxState).queue.length ∧
    (BoundedMailbox.send 1 OverflowPolicy.reject { initState with queue := [4] } 9
      = { ({ initState with queue := [4] } : MailboxState) with
            deadLetters := ({ initState with queue := [4] } : MailboxState).deadLetters ++ [9],
            resolvedNull := ({ initState with queue := [4] } : MailboxState).resolvedNull ++ [9],
            refused := ({ initState with queue := [4] } : MailboxState).refused ++ [9],
            droppedCount := ({ initState with queue := [4] } : MailboxState).droppedCount + 1 } ∧
     (run ⟨some 2, OverflowPolicy.reject⟩
        (Op.suspend :: ([1, 2, 3, 4, 5].map Op.send ++ [Op.resume]
          ++ List.replicate 2 Op.deliverStep ++ [Op.finishStep]))).delivered = [1, 2] ∧
     (run ⟨some 2, OverflowPolicy.reject⟩
        (Op.suspend :: ([1, 2, 3, 4, 5].map Op.send ++ [Op.resume]
          ++ List.replicate 2 Op.deliverStep ++ [Op.finishStep]))).droppedCount = 3 ∧
     (run ⟨some 2, OverflowPolicy.reject⟩
        (Op.suspend :: ([1, 2, 3, 4, 5].map Op.send ++ [Op.resume]
          ++ List.replicate 2 Op.deliverStep ++ [Op.finishStep]))).deadLetters = [3, 4, 5]) :=
  ⟨by decide, by decide,
   reject_routes_to_dead_letters 1 { initState with queue := [4] } 9 (by decide) (by decide)⟩

/-- Claim C9: every operation on a BoundedMailbox keeps the queue within
max(capacity, 1) messages, and for capacity at least 1 within the capacity
itself; for capacity 0 with DropOldest, a send on the empty queue still
appends one message, which is why max(capacity, 1) is the bound that holds
for all capacities. -/
theorem bounded_capacity_bound (c : Nat) (pol : OverflowPolicy) (t : List Op) :
    (run ⟨some c, pol⟩ t).queue.length ≤ max c 1 ∧
    (1 ≤ c → (run ⟨some c, pol⟩ t).queue.length ≤ c) ∧
    (∀ s : MailboxState, ∀ m : Nat, s.queue = [] → s.closed = false →
      (BoundedMailbox.send 0 OverflowPolicy.dropOldest s m).queue = [m]) := by
  have hb := queue_bound_run c pol t
  refine ⟨hb, ?_, ?_⟩
  · intro hc
    have : max c 1 = c := Nat.max_eq_left hc
    rw [this] at hb
    exact hb
  · intro s m hq hcl
    simp [BoundedMailbox.send, hcl, BoundedMailbox.handleOverflow, hq]

theorem bounded_capacity_bound_witness :
    (run ⟨some 2, OverflowPolicy.dropOldest⟩ [Op.send 1, Op.send 2, Op.send 3]).queue.length
      ≤ max 2 1 ∧
    (1 ≤ 2 → (run ⟨some 2, OverflowPolicy.dropOldest⟩
        [Op.send 1, Op.send 2, Op.send 3]).queue.length ≤ 2) ∧
    (∀ s : MailboxState, ∀ m : Nat, s.queue = [] → s.closed = false →
      (BoundedMailbox.send 0 OverflowPolicy.dropOldest s m).queue = [m]) :=
  bounded_capacity_bound 2 OverflowPolicy.dropOldest [Op.send 1, Op.send 2, Op.send 3]

/-- Claim C6: starting from a fresh unbounded mailbox, `suspend()` followed by
k sends invokes no handler and leaves all k messages queued in order (so
`size()` is k); `resume()` then clears the suspended flag and, since messages
remain, starts exactly one dispatch worker, and that worker drains the queue,
delivering all k messages in order and leaving the mailbox empty and
quiescent. -/
theorem suspend_buffers_resume_drains (ms : List Nat) :
    (run cfgU (Op.suspend :: ms.map Op.send)).delivered = [] ∧
    (run cfgU (Op.suspend :: ms.map Op.send)).queue = ms ∧
    (run cfgU ((Op.suspend :: ms.map Op.send) ++ [Op.resume])).suspended = false ∧
    (ms ≠ [] → (run cfgU ((Op.suspend :: ms.map Op.send) ++ [Op.resume])).workers = 1) ∧
    (run cfgU (((Op.suspend :: ms.map Op.send) ++ [Op.resume])
        ++ List.replicate ms.length Op.deliverStep ++ [Op.finishStep])).delivered = ms ∧
    (run cfgU (((Op.suspend :: ms.map Op.send) ++ [Op.resume])
        ++ List.replicate ms.length Op.deliverStep ++ [Op.finishStep])).queue = [] ∧
    (run cfgU (((Op.suspend :: ms.map Op.send) ++ [Op.resume])
        ++ List.replicate ms.length Op.deliverStep ++ [Op.finishStep])).workers = 0 := by
  rcases ms with _ | ⟨m0, mr⟩
  · refine ⟨?_, ?_, ?_, ?_, ?_, ?_, ?_⟩ <;> decide
  · have h1 : run cfgU (Op.suspend :: (m0 :: mr).map Op.send)
        = { initState with suspended := true, queue := m0 :: mr, appended := m0 :: mr } := by
      have h0 := sends_suspended (m0 :: mr) (Mailbox.suspend initState) rfl rfl
      rw [show run cfgU (Op.suspend :: (m0 :: mr).map Op.send)
          = ((m0 :: mr).map Op.send).foldl (step cfgU) (Mailbox.suspend initState) from rfl, h0]
      rfl
    have h2 : run cfgU ((Op.suspend :: (m0 :: mr).map Op.send) ++ [Op.resume])
        = { initState with
              suspended := false, queue := m0 :: mr, appended := m0 :: mr,
              dispatching := true, workers := 1 } := by
      rw [run_append, h1]
      simp [List.foldl_cons, step, Mailbox.resume, startWorker, initState]
    have h3 : run cfgU (((Op.suspend :: (m0 :: mr).map Op.send) ++ [Op.resume])
          ++ List.replicate (m0 :: mr).length Op.deliverStep)
        = { initState with
              suspended := false, queue := [], appended := m0 :: mr,
              delivered := m0 :: mr, dispatching := true, workers := 1 } := by
      rw [run_append, h2]
      have hd := drain_deliver cfgU (m0 :: mr)
        { initState with
            suspended := false, queue := m0 :: mr, appended := m0 :: mr,
            dispatching := true, workers := 1 } rfl rfl (Nat.le_refl 1) rfl
      rw [hd]
      rfl
    have h4 : run cfgU ((((Op.suspend :: (m0 :: mr).map Op.send) ++ [Op.resume])
          ++ List.replicate (m0 :: mr).length Op.deliverStep) ++ [Op.finishStep])
        = { initState with
              suspended := false, queue := [], appended := m0 :: mr,
              delivered := m0 :: mr, dispatching := false, workers := 0 } := by
      rw [run_append, h3]
      simp [List.foldl_cons, step, workerFinish, startWorker, initState]
    have h4a : (((Op.suspend :: (m0 :: mr).map Op.send) ++ [Op.resume])
          ++ List.replicate (m0 :: mr).length Op.deliverStep ++ [Op.finishStep])
        = ((((Op.suspend :: (m0 :: mr).map Op.send) ++ [Op.resume])
          ++ List.replicate (m0 :: mr).length Op.deliverStep) ++ [Op.finishStep]) := by
      simp [List.append_assoc]
    refine ⟨?_, ?_, ?_, ?_, ?_, ?_, ?_⟩
    · rw [h1]
      rfl
    · rw [h1]
    · rw [h2]
    · intro _
      rw [h2]
    · rw [h4a, h4]
    · rw [h4a, h4]
    · rw [h4a, h4]

theorem suspend_buffers_resume_drains_witness :
    (run cfgU (Op.suspend :: [10, 20, 30].map Op.send)).delivered = [] ∧
    (run cfgU (Op.suspend :: [10, 20, 30].map Op.send)).queue = [10, 20, 30] ∧
    (run cfgU ((Op.suspend :: [10, 20, 30].map Op.send) ++ [Op.resume])).suspended = false ∧
    ([10, 20, 30] ≠ ([] : List Nat) →
      (run cfgU ((Op.suspend :: [10, 20, 30].map Op.send) ++ [Op.resume])).workers = 1) ∧
    (run cfgU (((Op.suspend :: [10, 20, 30].map Op.send) ++ [Op.resume])
        ++ List.replicate ([10, 20, 30] : List Nat).length Op.deliverStep
        ++ [Op.finishStep])).delivered = [10, 20, 30] ∧
    (run cfgU (((Op.suspend :: [10, 20, 30].map Op.send) ++ [Op.resume])
        ++ List.replicate ([10, 20, 30] : List Nat).length Op.deliverStep
        ++ [Op.finishStep])).queue = [] ∧
    (run cfgU (((Op.suspend :: [10, 20, 30].map Op.send) ++ [Op.resume])
        ++ List.replicate ([10, 20, 30] : List Nat).length Op.deliverStep
        ++ [Op.finishStep])).workers = 0 :=
  suspend_buffers_resume_drains [10, 20, 30]

/-- Claim C10: `close()` only sets the closed flag — the resulting state is
the old state with `closed := true`, so the queue, the suspended flag, the
dropped count and every log are untouched — and afterwards, over any
continuation (assuming pairwise-distinct sent messages), the queue and the
delivered log never change again, and the messages that were queued at the
moment of closing are never delivered, never routed to dead letters, and
never have their completions resolved. -/
theorem close_sets_only_closed_flag (cfg : Config) (t u : List Op)
    (h : (sentMsgs (t ++ Op.close :: u)).Nodup) :
    Mailbox.close (run cfg t) = { run cfg t with closed := true } ∧
    (run cfg (t ++ Op.close :: u)).queue = (run cfg t).queue ∧
    (run cfg (t ++ Op.close :: u)).delivered = (run cfg t).delivered ∧
    (run cfg (t ++ Op.close :: u)).droppedCount = (run cfg t).droppedCount ∧
    (∀ m ∈ (run cfg t).queue,
      m ∉ (run cfg (t ++ Op.close :: u)).delivered ∧
      m ∉ (run cfg (t ++ Op.close :: u)).deadLetters ∧
      m ∉ (run cfg (t ++ Op.close :: u)).resolvedNull) := by
  have hsplit : t ++ Op.close :: u = (t ++ [Op.close]) ++ u := by simp
  have hstep2 : run cfg (t ++ [Op.close]) = Mailbox.close (run cfg t) := by
    rw [run_append]
    rfl
  have hclosed : (run cfg (t ++ [Op.close])).closed = true := by
    rw [hstep2]
    rfl
  obtain ⟨k1, k2, k3, k4, k5, k6, k7, k8, k9⟩ :=
    fold_closed cfg u (run cfg (t ++ [Op.close])) hclosed
  have hrun : run cfg (t ++ Op.close :: u)
      = u.foldl (step cfg) (run cfg (t ++ [Op.close])) := by
    rw [hsplit, run_append]
  have hsent : sentMsgs (t ++ Op.close :: u) = sentMsgs t ++ sentMsgs u := by
    rw [hsplit, sentMsgs_append, sentMsgs_append]
    simp [sentMsgs]
  rw [hsent] at h
  obtain ⟨hnt, hnu, hdisjtu⟩ := List.nodup_append.mp h
  obtain ⟨f1, f2, f3, f4, f5, f6, f7⟩ := inv_run cfg t
  have happ : (run cfg t).appended.Nodup := hnt.sublist f4
  have hqd : ((run cfg t).delivered ++ (run cfg t).queue ++ (run cfg t).evicted).Nodup :=
    f2.nodup_iff.mpr happ
  have hsn : ((run cfg t).appended ++ (run cfg t).refused).Nodup :=
    f3.nodup_iff.mpr hnt
  obtain ⟨hdq, hev, hq3⟩ := List.nodup_append.mp hqd
  obtain ⟨hap2, hrf2, hs3⟩ := List.nodup_append.mp hsn
  obtain ⟨hdvn, hqn, hdvq⟩ := List.nodup_append.mp hdq
  refine ⟨rfl, ?_, ?_, ?_, ?_⟩
  · rw [hrun, k2, hstep2]
    rfl
  · rw [hrun, k3, hstep2]
    rfl
  · rw [hrun, k6, hstep2]
    rfl
  · intro m hmq
    have hmdvq : m ∈ (run cfg t).delivered ++ (run cfg t).queue :=
      List.mem_append.mpr (Or.inr hmq)
    have hmapp : m ∈ (run cfg t).appended := f1.subset hmdvq
    have hmsent : m ∈ sentMsgs t := f4.subset hmapp
    have hmnu : m ∉ sentMsgs u := hdisjtu hmsent
    have hmnrf : m ∉ (run cfg t).refused := hs3 hmapp
    refine ⟨?_, ?_, ?_⟩
    · rw [hrun, k3, hstep2]
      show m ∉ (run cfg t).delivered
      intro hcontra
      exact hdvq hcontra hmq
    · rw [hrun, k7, hstep2]
      show m ∉ (run cfg t).deadLetters ++ sentMsgs u
      intro hcontra
      rcases List.mem_append.mp hcontra with hx | hx
      · exact hmnrf (f5.subset hx)
      · exact hmnu hx
    · rw [hrun, k8, hstep2]
      show m ∉ (run cfg t).resolvedNull ++ sentMsgs u
      intro hcontra
      rcases List.mem_append.mp hcontra with hx | hx
      · rcases f6 m hx with he | hr
        · exact hq3 hmdvq he
        · exact hmnrf hr
      · exact hmnu hx

theorem close_sets_only_closed_flag_witness :
    (sentMsgs ([Op.send 1] ++ Op.close :: [Op.send 2])).Nodup ∧
    (Mailbox.close (run cfgU [Op.send 1]) = { run cfgU [Op.send 1] with closed := true } ∧
     (run cfgU ([Op.send 1] ++ Op.close :: [Op.send 2])).queue
        = (run cfgU [Op.send 1]).queue ∧
     (run cfgU ([Op.send 1] ++ Op.close :: [Op.send 2])).delivered
        = (run cfgU [Op.send 1]).delivered ∧
     (run cfgU ([Op.send 1] ++ Op.close :: [Op.send 2])).droppedCount
        = (run cfgU [Op.send 1]).droppedCount ∧
     (∀ m ∈ (run cfgU [Op.send 1]).queue,
       m ∉ (run cfgU ([Op.send 1] ++ Op.close :: [Op.send 2])).delivered ∧
       m ∉ (run cfgU ([Op.send 1] ++ Op.close :: [Op.send 2])).deadLetters ∧
       m ∉ (run cfgU ([Op.send 1] ++ Op.close :: [Op.send 2])).resolvedNull)) :=
  ⟨by decide, close_sets_only_closed_flag cfgU [Op.send 1] [Op.send 2] (by decide)⟩

end DomoActors

